import Mathlib

/-!
# Domain membership triples (package `comid`, file `membership_triple.go`)

A shallow embedding of the domain-membership-triple record, its collection, and
their validation and append operations, followed by the properties proved of
them.

Conventions of the embedding.

* A Go pointer `*T` is `Ptr T = Option T`: `none` is the nil pointer and
  `some v` is a non-nil pointer whose pointee currently holds `v`.  A method
  that mutates its receiver and ends in `return o` is a function returning the
  receiver with the pointee as it is after the call.
* A Go slice is a `List`; the nil slice and the empty slice are both `[]`
  (the code only takes `len`, ranges and appends, which do not tell them apart).
* A Go `error` result is `Option GoError`, `none` being the nil error.
* Dereferencing a nil pointer is the run-time panic `Panic.nilDereference`;
  methods that dereference their receiver return in `Except Panic`.
* `Environment` and its `Valid` method are declared elsewhere in the package;
  the operations take the type and the method (`envValid`) as parameters.
* The document aggregate (`Triples`, `Comid`) and the codec are not in
  `membership_triple.go`; what is needed of them is modelled from the
  specification, and each such definition says so.  The encoding of an
  Environment is a parameter (`encodeEnv`).
-/

namespace comid

/-! ## Errors -/

/-- Go error values as the standard library builds them: `errorString` is the
value of `errors.New(s)`, `wrapError` the value of a `fmt.Errorf` call whose
format has one `%w` verb (`msg` is the formatted text, `err` the wrapped
cause returned by `Unwrap`). -/
inductive GoError where
  | errorString (s : String)
  | wrapError (msg : String) (err : GoError)
  deriving DecidableEq, Repr

/-- The `Error()` method: the message of the error. -/
def GoError.Error : GoError → String
  | .errorString s => s
  | .wrapError msg _ => msg

/-- The `Unwrap()` step of `errors.Unwrap`: the wrapped cause, if any. -/
def GoError.Unwrap : GoError → Option GoError
  | .errorString _ => none
  | .wrapError _ err => some err

/-- The verb `%d` applied to a non-negative `int`: its decimal digits. -/
def fmtInt (i : Nat) : String := Nat.repr i

/-- Go's `strings.Contains(s, substr)` (what `assert.Contains` checks on an
error message). -/
def strContains (s substr : String) : Prop := substr.data <:+: s.data

instance (s substr : String) : Decidable (strContains s substr) := by
  unfold strContains; infer_instance

/-- Run-time panics of the operations below. -/
inductive Panic where
  | nilDereference
  deriving DecidableEq, Repr

/-- A Go pointer: `none` is nil, `some v` points to a cell holding `v`. -/
abbrev Ptr (α : Type) := Option α

/-! ## The record and its collection -/

/-- The struct `DomainMembershipTriple`: a domain identifier and its member
environments. -/
structure DomainMembershipTriple (Environment : Type) where
  DomainID : Environment
  Members : List Environment
  deriving DecidableEq, Repr

/-- The slice type `DomainMembershipTriples`. -/
abbrev DomainMembershipTriples (Environment : Type) := List (DomainMembershipTriple Environment)

section Operations

variable {Environment : Type} (envValid : Environment → Option GoError)

/-- The loop `for i, member := range o.Members` of `DomainMembershipTriple.Valid`,
entered at index `i` with the members still to visit. -/
def DomainMembershipTriple.Valid.members : Nat → List Environment → Option GoError
  | _, [] => none
  | i, member :: rest =>
    match envValid member with
    | some err =>
      some (.wrapError
        ("members validation failed: member at index " ++ fmtInt i ++ ": " ++ err.Error) err)
    | none => DomainMembershipTriple.Valid.members (i + 1) rest

/-- The method `func (o *DomainMembershipTriple) Valid() error`. -/
def DomainMembershipTriple.Valid (o : Ptr (DomainMembershipTriple Environment)) :
    Except Panic (Option GoError) :=
  match o with
  | none => .error .nilDereference
  | some t =>
    match envValid t.DomainID with
    | some err =>
      .ok (some (.wrapError ("domain-id validation failed: " ++ err.Error) err))
    | none =>
      if t.Members.length = 0 then
        .ok (some (.errorString "members validation failed: no member environments"))
      else
        .ok (DomainMembershipTriple.Valid.members envValid 0 t.Members)

/-- The method `func (o *DomainMembershipTriple) AddMember(env Environment)`. -/
def DomainMembershipTriple.AddMember (o : Ptr (DomainMembershipTriple Environment))
    (env : Environment) : Ptr (DomainMembershipTriple Environment) :=
  match o with
  | some t => some { t with Members := t.Members ++ [env] }
  | none => o

/-- The constructor `NewDomainMembershipTriples`: a pointer to a fresh empty
collection. -/
def NewDomainMembershipTriples : Ptr (DomainMembershipTriples Environment) :=
  some []

/-- The loop `for i, triple := range *o` of `DomainMembershipTriples.Valid`,
entered at index `i` with the triples still to visit; `triple` is a local
copy, so the call `triple.Valid()` has the non-nil receiver `&triple`. -/
def DomainMembershipTriples.Valid.triples :
    Nat → List (DomainMembershipTriple Environment) → Except Panic (Option GoError)
  | _, [] => .ok none
  | i, triple :: rest =>
    match DomainMembershipTriple.Valid envValid (some triple) with
    | .error p => .error p
    | .ok (some err) =>
      .ok (some (.wrapError
        ("domain membership triple at index " ++ fmtInt i ++ ": " ++ err.Error) err))
    | .ok none => DomainMembershipTriples.Valid.triples (i + 1) rest

/-- The method `func (o *DomainMembershipTriples) Valid() error`. -/
def DomainMembershipTriples.Valid (o : Ptr (DomainMembershipTriples Environment)) :
    Except Panic (Option GoError) :=
  match o with
  | none => .error .nilDereference
  | some c => DomainMembershipTriples.Valid.triples envValid 0 c

/-- The method `func (o *DomainMembershipTriples) IsEmpty() bool`. -/
def DomainMembershipTriples.IsEmpty (o : Ptr (DomainMembershipTriples Environment)) :
    Except Panic Bool :=
  match o with
  | none => .error .nilDereference
  | some c => .ok (c.length == 0)

/-- The method `func (o *DomainMembershipTriples) Add(val *DomainMembershipTriple)`. -/
def DomainMembershipTriples.Add (o : Ptr (DomainMembershipTriples Environment))
    (val : Ptr (DomainMembershipTriple Environment)) :
    Ptr (DomainMembershipTriples Environment) :=
  match o, val with
  | some c, some t => some (c ++ [t])
  | _, _ => o

end Operations

/-! ## Validation as a step on the receiver -/

section Steps

variable {Environment : Type} (envValid : Environment → Option GoError)

/-- The call `o.Valid()` of `DomainMembershipTriple` in state-passing form: the
result together with the receiver as the call leaves it.  The body reads
`o.DomainID` and `o.Members`, the loop variable `member` is a copy, and no
statement assigns through `o`, so every exit hands the pointee back as read. -/
def DomainMembershipTriple.Valid.step (o : Ptr (DomainMembershipTriple Environment)) :
    Except Panic (Option GoError) × Ptr (DomainMembershipTriple Environment) :=
  match o with
  | none => (.error .nilDereference, none)
  | some t =>
    match envValid t.DomainID with
    | some err =>
      (.ok (some (.wrapError ("domain-id validation failed: " ++ err.Error) err)), some t)
    | none =>
      if t.Members.length = 0 then
        (.ok (some (.errorString "members validation failed: no member environments")), some t)
      else
        (.ok (DomainMembershipTriple.Valid.members envValid 0 t.Members), some t)

/-- The loop of `DomainMembershipTriples.Valid` in state-passing form: `st` is
the collection `*o`, threaded through the iterations.  Each iteration calls
`Valid` on the copy `triple`; what that call leaves in the copy is dropped
with the copy at the end of the iteration. -/
def DomainMembershipTriples.Valid.stepLoop :
    Nat → List (DomainMembershipTriple Environment) → DomainMembershipTriples Environment →
      Except Panic (Option GoError) × DomainMembershipTriples Environment
  | _, [], st => (.ok none, st)
  | i, triple :: rest, st =>
    match DomainMembershipTriple.Valid.step envValid (some triple) with
    | (.error p, _) => (.error p, st)
    | (.ok (some err), _) =>
      (.ok (some (.wrapError
        ("domain membership triple at index " ++ fmtInt i ++ ": " ++ err.Error) err)), st)
    | (.ok none, _) => DomainMembershipTriples.Valid.stepLoop (i + 1) rest st

/-- The call `o.Valid()` of `DomainMembershipTriples` in state-passing form:
the result together with the receiver as the call leaves it. -/
def DomainMembershipTriples.Valid.step (o : Ptr (DomainMembershipTriples Environment)) :
    Except Panic (Option GoError) × Ptr (DomainMembershipTriples Environment) :=
  match o with
  | none => (.error .nilDereference, none)
  | some cs =>
    ((DomainMembershipTriples.Valid.stepLoop envValid 0 cs cs).1,
      some (DomainMembershipTriples.Valid.stepLoop envValid 0 cs cs).2)

end Steps

/-! ## The document aggregate -/

section Aggregate

variable {Environment Siblings Metadata : Type}

/-- Modelled from the spec: the relationship-holder `Triples` of the document
aggregate, whose declaration and methods are not in `membership_triple.go`.
It "composes zero-or-one RelationshipTripleCollection alongside other
relationship-kind collections"; `siblings` stands for those other
collections. -/
structure Triples (Environment Siblings : Type) where
  siblings : Siblings
  DomainMembershipTriples : Ptr (DomainMembershipTriples Environment)

/-- Modelled from the spec: `Triples.AddDomainMembershipTriple`, which "given a
triple, lazily instantiates the collection if absent, appends the triple, and
returns the aggregate unchanged (chainable); if the aggregate reference itself
is absent, it is a no-op returning the absent aggregate". -/
def Triples.AddDomainMembershipTriple (o : Ptr (Triples Environment Siblings))
    (val : Ptr (DomainMembershipTriple Environment)) : Ptr (Triples Environment Siblings) :=
  match o with
  | none => none
  | some ts =>
    let col : Ptr (comid.DomainMembershipTriples Environment) :=
      match ts.DomainMembershipTriples with
      | none => NewDomainMembershipTriples
      | some cs => some cs
    some { ts with DomainMembershipTriples := DomainMembershipTriples.Add col val }

/-- Modelled from the spec: the document `Comid`, whose declaration and methods
are not in `membership_triple.go`: the relationship-holder together with
"entities, and metadata", for which `metadata` stands. -/
structure Comid (Environment Siblings Metadata : Type) where
  metadata : Metadata
  Triples : Triples Environment Siblings

/-- Modelled from the spec: `Comid.AddDomainMembershipTriple`, the same attach
operation on the document: it attaches through the document's
relationship-holder and returns the document; on an absent document it is a
no-op returning the absent document. -/
def Comid.AddDomainMembershipTriple (o : Ptr (Comid Environment Siblings Metadata))
    (val : Ptr (DomainMembershipTriple Environment)) :
    Ptr (Comid Environment Siblings Metadata) :=
  match o with
  | none => none
  | some doc =>
    match Triples.AddDomainMembershipTriple (some doc.Triples) val with
    | some ts => some { doc with Triples := ts }
    | none => none

end Aggregate

/-! ## Wire format -/

/-- Modelled from the spec: the structured values written and read by the
external generic codec, which is not part of the sources: ordered arrays (the
compact binary form of a record), keyed objects (the textual form), and text
and null for leaves. -/
inductive DataItem where
  | null
  | text (s : String)
  | array (items : List DataItem)
  | object (fields : List (String × DataItem))

/-- The keys of a keyed object, in order; no keys for any other item. -/
def DataItem.keys : DataItem → List String
  | .object fields => fields.map Prod.fst
  | _ => []

section Codec

variable {Environment : Type} (encodeEnv : Environment → DataItem)

/-- The fields of `DomainMembershipTriple` in declaration order, each under the
key of its `json` tag (`domain-id`, `members`) with its encoded value; the
members are encoded in sequence order. -/
def DomainMembershipTriple.fields (t : DomainMembershipTriple Environment) :
    List (String × DataItem) :=
  [("domain-id", encodeEnv t.DomainID), ("members", .array (t.Members.map encodeEnv))]

/-- Modelled from the spec: the compact binary form of the record (struct tag
`cbor:",toarray"`), "a fixed two-element ordered array: `[domain, members]`,
with no field-name tags". -/
def DomainMembershipTriple.encodeCBOR (t : DomainMembershipTriple Environment) : DataItem :=
  .array ((DomainMembershipTriple.fields encodeEnv t).map Prod.snd)

/-- Modelled from the spec: the textual form of the record, "a keyed object
with keys `domain-id` and `members`". -/
def DomainMembershipTriple.encodeJSON (t : DomainMembershipTriple Environment) : DataItem :=
  .object (DomainMembershipTriple.fields encodeEnv t)

end Codec

/-! ## A concrete Environment for worked instances -/

/-- Modelled from the spec: the `Environment` identity unit, whose declaration
is not in `membership_triple.go`.  It keeps the two kinds of information the
spec names, class and instance. -/
structure ClassInstanceEnvironment where
  Class : Option String
  Instance : Option String
  deriving DecidableEq, Repr

/-- Modelled from the spec: `Environment.Valid`, "an Environment with no class
and no instance information is invalid"; any other is accepted here. -/
def ClassInstanceEnvironment.Valid (o : ClassInstanceEnvironment) : Option GoError :=
  if o.Class = none ∧ o.Instance = none then
    some (.errorString "environment must not be empty")
  else none

/-- The empty `Environment{}` of the tests: no class, no instance. -/
def emptyEnvironment : ClassInstanceEnvironment := ⟨none, none⟩

/-- An Environment with class information only. -/
def classEnvironment : ClassInstanceEnvironment := ⟨some "TPM 2.0", none⟩

/-- An Environment with instance information only. -/
def instanceEnvironment : ClassInstanceEnvironment := ⟨none, some "ueid-01"⟩

/-! ## Lemmas on the two validation loops -/

section Lemmas

variable {Environment : Type} (envValid : Environment → Option GoError)

/-- The member loop reports nothing exactly when every member it visits is
accepted. -/
theorem members_eq_none_iff (i : Nat) (m : List Environment) :
    DomainMembershipTriple.Valid.members envValid i m = none ↔ ∀ e ∈ m, envValid e = none := by
  induction m generalizing i with
  | nil => simp [DomainMembershipTriple.Valid.members]
  | cons a rest ih =>
    cases ha : envValid a with
    | none => simp [DomainMembershipTriple.Valid.members, ha, ih]
    | some err => simp [DomainMembershipTriple.Valid.members, ha]

/-- The member loop entered at index `i` stops at the first rejected member,
`k` places further on, and reports index `i + k`. -/
theorem members_at (i k : Nat) (m : List Environment) (e : Environment) (err : GoError)
    (hk : m[k]? = some e) (he : envValid e = some err)
    (hlt : ∀ j, j < k → ∀ x, m[j]? = some x → envValid x = none) :
    DomainMembershipTriple.Valid.members envValid i m =
      some (.wrapError
        ("members validation failed: member at index " ++ fmtInt (i + k) ++ ": " ++ err.Error)
        err) := by
  induction m generalizing i k with
  | nil => simp at hk
  | cons a rest ih =>
    cases k with
    | zero =>
      simp at hk
      subst hk
      simp [DomainMembershipTriple.Valid.members, he]
    | succ k =>
      have ha : envValid a = none := hlt 0 (Nat.succ_pos k) a (by simp)
      simp only [DomainMembershipTriple.Valid.members, ha]
      have := ih (i + 1) k (by simpa using hk)
        (fun j hj x hx => hlt (j + 1) (Nat.succ_lt_succ hj) x (by simpa using hx))
      rw [this]
      have hi : i + 1 + k = i + (k + 1) := by omega
      rw [hi]

/-- Replacing what follows position `k` leaves positions `0..k` as they were. -/
theorem getElem?_take_succ_append {α : Type} (m later : List α) (k j : Nat) (hj : j ≤ k)
    (x : α) (hx : m[k]? = some x) : (m.take (k + 1) ++ later)[j]? = m[j]? := by
  have hlen : k < m.length := by
    rcases List.getElem?_eq_some.1 hx with ⟨h, _⟩
    exact h
  have hjl : j < (m.take (k + 1)).length := by
    simp [List.length_take]; omega
  rw [List.getElem?_append_left hjl, List.getElem?_take]
  simp; omega

/-- On a non-nil receiver with an accepted domain and at least one member, the
result of `Valid` is that of the member loop from index 0. -/
theorem triple_valid_of_domain_ok (d : Environment) (m : List Environment)
    (hd : envValid d = none) (hm : m ≠ []) :
    DomainMembershipTriple.Valid envValid (some ⟨d, m⟩) =
      .ok (DomainMembershipTriple.Valid.members envValid 0 m) := by
  have : m.length ≠ 0 := fun h => hm (List.length_eq_zero.1 h)
  simp [DomainMembershipTriple.Valid, hd, this]

end Lemmas

/-! ## Validation of one triple -/

section TripleValid

variable {Environment : Type} (envValid : Environment → Option GoError)

/-- When `Valid()` returns the nil error on a non-nil receiver, the domain
passes, there is a member, and the member loop reports nothing. -/
theorem triple_valid_nil_parts (d : Environment) (m : List Environment)
    (hv : DomainMembershipTriple.Valid envValid (some ⟨d, m⟩) = .ok none) :
    envValid d = none ∧ m ≠ [] ∧ DomainMembershipTriple.Valid.members envValid 0 m = none := by
  cases hd : envValid d with
  | some err => simp [DomainMembershipTriple.Valid, hd] at hv
  | none =>
    by_cases hm : m = []
    · subst hm
      simp [DomainMembershipTriple.Valid, hd] at hv
    · rw [triple_valid_of_domain_ok envValid d m hd hm] at hv
      refine ⟨rfl, hm, ?_⟩
      injection hv

/-- C1: on a non-nil receiver `DomainMembershipTriple{DomainID: d, Members: m}`,
`Valid()` returns the nil error if and only if `d.Valid()` succeeds, `m` has at
least one element and every element of `m` passes `Environment.Valid()`. -/
theorem triple_valid_nil_iff (d : Environment) (m : List Environment) :
    DomainMembershipTriple.Valid envValid (some ⟨d, m⟩) = .ok none ↔
      envValid d = none ∧ 1 ≤ m.length ∧ ∀ e ∈ m, envValid e = none := by
  cases hd : envValid d with
  | some err => simp [DomainMembershipTriple.Valid, hd]
  | none =>
    cases m with
    | nil => simp [DomainMembershipTriple.Valid, hd]
    | cons a rest =>
      rw [triple_valid_of_domain_ok envValid d (a :: rest) hd (by simp)]
      have h := members_eq_none_iff envValid 0 (a :: rest)
      constructor
      · intro hv
        have hv2 : DomainMembershipTriple.Valid.members envValid 0 (a :: rest) = none := by
          injection hv
        exact ⟨rfl, by simp, h.1 hv2⟩
      · rintro ⟨_, _, hall⟩
        rw [h.2 hall]

/-- C2: when `d.Valid()` fails with `err`, then for every member sequence `m`
`DomainMembershipTriple{d, m}.Valid()` fails with the domain error, whose
message is "domain-id validation failed: " followed by the message of `err`
and whose wrapped cause is `err`; no member is looked at. -/
theorem triple_valid_domain_error (d : Environment) (m : List Environment) (err : GoError)
    (hd : envValid d = some err) :
    DomainMembershipTriple.Valid envValid (some ⟨d, m⟩) =
      .ok (some (.wrapError ("domain-id validation failed: " ++ err.Error) err)) := by
  simp [DomainMembershipTriple.Valid, hd]

/-- C3: for a valid domain `d`, `DomainMembershipTriple{d, []}.Valid()` fails
with the error whose message is exactly
"members validation failed: no member environments", which contains
"no member environments". -/
theorem triple_valid_no_members (d : Environment) (hd : envValid d = none) :
    DomainMembershipTriple.Valid envValid (some ⟨d, []⟩) =
        .ok (some (.errorString "members validation failed: no member environments")) ∧
      GoError.Error (.errorString "members validation failed: no member environments") =
        "members validation failed: no member environments" ∧
      strContains
        (GoError.Error (.errorString "members validation failed: no member environments"))
        "no member environments" := by
  refine ⟨?_, rfl, by decide⟩
  simp [DomainMembershipTriple.Valid, hd]

/-- C4: for a valid domain `d` and a member sequence `m` whose lowest rejected
position is `k` (`m[k]` fails with `err`, every position below `k` passes),
`DomainMembershipTriple{d, m}.Valid()` fails with the message
"members validation failed: member at index k: " followed by the message of
`err`, wrapping `err`; and whatever stands after position `k` (other rejected
members included) does not change that result. -/
theorem triple_valid_first_invalid_member (d : Environment) (m : List Environment) (k : Nat)
    (e : Environment) (err : GoError) (hd : envValid d = none)
    (hk : m[k]? = some e) (he : envValid e = some err)
    (hlt : ∀ j, j < k → ∀ x, m[j]? = some x → envValid x = none) :
    DomainMembershipTriple.Valid envValid (some ⟨d, m⟩) =
        .ok (some (.wrapError
          ("members validation failed: member at index " ++ fmtInt k ++ ": " ++ err.Error)
          err)) ∧
      ∀ later : List Environment,
        DomainMembershipTriple.Valid envValid (some ⟨d, m.take (k + 1) ++ later⟩) =
          DomainMembershipTriple.Valid envValid (some ⟨d, m⟩) := by
  have hne : m ≠ [] := by
    intro h
    subst h
    simp at hk
  have hmain : DomainMembershipTriple.Valid envValid (some ⟨d, m⟩) =
      .ok (some (.wrapError
        ("members validation failed: member at index " ++ fmtInt k ++ ": " ++ err.Error)
        err)) := by
    rw [triple_valid_of_domain_ok envValid d m hd hne,
      members_at envValid 0 k m e err hk he hlt, Nat.zero_add]
  refine ⟨hmain, fun later => ?_⟩
  have hk2 : (m.take (k + 1) ++ later)[k]? = some e := by
    rw [getElem?_take_succ_append m later k k (Nat.le_refl k) e hk, hk]
  have hne2 : m.take (k + 1) ++ later ≠ [] := by
    intro h
    rw [h] at hk2
    simp at hk2
  rw [hmain, triple_valid_of_domain_ok envValid d _ hd hne2,
    members_at envValid 0 k _ e err hk2 he
      (fun j hj x hx => hlt j hj x (by
        rw [getElem?_take_succ_append m later k j (Nat.le_of_lt hj) e hk] at hx
        exact hx)),
    Nat.zero_add]

/-- C5 (amended): `DomainMembershipTriple{d, []}.Valid()` fails for every
domain `d`, with the empty-membership error when `d` is valid and with the
domain error ("domain-id validation failed: " and the message of `d`) when `d`
is invalid: the domain is checked before the members are counted. -/
theorem triple_valid_empty_members (d : Environment) :
    DomainMembershipTriple.Valid envValid (some ⟨d, []⟩) =
      .ok (some
        (match envValid d with
         | none => .errorString "members validation failed: no member environments"
         | some err => .wrapError ("domain-id validation failed: " ++ err.Error) err)) := by
  cases hd : envValid d <;> simp [DomainMembershipTriple.Valid, hd]

end TripleValid

/-! ## Validation of a collection -/

section CollectionValid

variable {Environment : Type} (envValid : Environment → Option GoError)

/-- On a non-nil receiver `DomainMembershipTriple.Valid` returns normally. -/
theorem triple_valid_returns (t : DomainMembershipTriple Environment) :
    ∃ r, DomainMembershipTriple.Valid envValid (some t) = .ok r := by
  cases hd : envValid t.DomainID with
  | some err => exact ⟨_, by simp [DomainMembershipTriple.Valid, hd]; rfl⟩
  | none =>
    by_cases h : t.Members.length = 0
    · exact ⟨_, by simp [DomainMembershipTriple.Valid, hd, h]; rfl⟩
    · exact ⟨_, by simp [DomainMembershipTriple.Valid, hd, h]; rfl⟩

/-- The triple loop reports nothing exactly when every triple it visits is
valid. -/
theorem triples_eq_none_iff (i : Nat) (cs : List (DomainMembershipTriple Environment)) :
    DomainMembershipTriples.Valid.triples envValid i cs = .ok none ↔
      ∀ t ∈ cs, DomainMembershipTriple.Valid envValid (some t) = .ok none := by
  induction cs generalizing i with
  | nil => simp [DomainMembershipTriples.Valid.triples]
  | cons a rest ih =>
    rcases triple_valid_returns envValid a with ⟨r, hr⟩
    cases r with
    | none => simp [DomainMembershipTriples.Valid.triples, hr, ih]
    | some err => simp [DomainMembershipTriples.Valid.triples, hr]

/-- The triple loop entered at index `i` stops at the first invalid triple,
`n` places further on, and reports index `i + n` around that triple's error. -/
theorem triples_at (i n : Nat) (cs : List (DomainMembershipTriple Environment))
    (t : DomainMembershipTriple Environment) (err : GoError)
    (hn : cs[n]? = some t)
    (ht : DomainMembershipTriple.Valid envValid (some t) = .ok (some err))
    (hlt : ∀ j, j < n → ∀ x, cs[j]? = some x →
      DomainMembershipTriple.Valid envValid (some x) = .ok none) :
    DomainMembershipTriples.Valid.triples envValid i cs =
      .ok (some (.wrapError
        ("domain membership triple at index " ++ fmtInt (i + n) ++ ": " ++ err.Error) err)) := by
  induction cs generalizing i n with
  | nil => simp at hn
  | cons a rest ih =>
    cases n with
    | zero =>
      simp at hn
      subst hn
      simp [DomainMembershipTriples.Valid.triples, ht]
    | succ n =>
      have ha : DomainMembershipTriple.Valid envValid (some a) = .ok none :=
        hlt 0 (Nat.succ_pos n) a (by simp)
      simp only [DomainMembershipTriples.Valid.triples, ha]
      have := ih (i + 1) n (by simpa using hn)
        (fun j hj x hx => hlt (j + 1) (Nat.succ_lt_succ hj) x (by simpa using hx))
      rw [this]
      have hi : i + 1 + n = i + (n + 1) := by omega
      rw [hi]

/-- C6: for a non-nil collection `cs`, `cs.Valid()` returns the nil error if and
only if every triple in `cs` passes `DomainMembershipTriple.Valid()`; and the
empty collection made by `NewDomainMembershipTriples()` is valid. -/
theorem collection_valid_nil_iff (cs : DomainMembershipTriples Environment) :
    (DomainMembershipTriples.Valid envValid (some cs) = .ok none ↔
        ∀ t ∈ cs, DomainMembershipTriple.Valid envValid (some t) = .ok none) ∧
      DomainMembershipTriples.Valid envValid
        (NewDomainMembershipTriples : Ptr (DomainMembershipTriples Environment)) = .ok none := by
  refine ⟨?_, ?_⟩
  · exact triples_eq_none_iff envValid 0 cs
  · simp [DomainMembershipTriples.Valid, NewDomainMembershipTriples,
      DomainMembershipTriples.Valid.triples]

/-- C7: for a collection `cs` whose lowest invalid position is `n` (`cs[n].Valid()`
returns `err`, every triple below `n` is valid), `cs.Valid()` fails with the
message "domain membership triple at index n: " followed by the message of
`err`, wrapping `err` itself; and the triples after position `n` do not change
that result. -/
theorem collection_valid_first_invalid_triple (cs : DomainMembershipTriples Environment)
    (n : Nat) (t : DomainMembershipTriple Environment) (err : GoError)
    (hn : cs[n]? = some t)
    (ht : DomainMembershipTriple.Valid envValid (some t) = .ok (some err))
    (hlt : ∀ j, j < n → ∀ x, cs[j]? = some x →
      DomainMembershipTriple.Valid envValid (some x) = .ok none) :
    DomainMembershipTriples.Valid envValid (some cs) =
        .ok (some (.wrapError
          ("domain membership triple at index " ++ fmtInt n ++ ": " ++ err.Error) err)) ∧
      ∀ later : DomainMembershipTriples Environment,
        DomainMembershipTriples.Valid envValid (some (cs.take (n + 1) ++ later)) =
          DomainMembershipTriples.Valid envValid (some cs) := by
  have hmain : DomainMembershipTriples.Valid envValid (some cs) =
      .ok (some (.wrapError
        ("domain membership triple at index " ++ fmtInt n ++ ": " ++ err.Error) err)) := by
    show DomainMembershipTriples.Valid.triples envValid 0 cs = _
    rw [triples_at envValid 0 n cs t err hn ht hlt, Nat.zero_add]
  refine ⟨hmain, fun later => ?_⟩
  have hn2 : (cs.take (n + 1) ++ later)[n]? = some t := by
    rw [getElem?_take_succ_append cs later n n (Nat.le_refl n) t hn, hn]
  rw [hmain]
  show DomainMembershipTriples.Valid.triples envValid 0 (cs.take (n + 1) ++ later) = _
  rw [triples_at envValid 0 n _ t err hn2 ht
      (fun j hj x hx => hlt j hj x (by
        rw [getElem?_take_succ_append cs later n j (Nat.le_of_lt hj) t hn] at hx
        exact hx)),
    Nat.zero_add]

end CollectionValid

/-! ## Appending -/

section Append

variable {Environment : Type}

/-- Adding to a non-nil, non-empty collection leaves it non-nil and non-empty,
whatever is added. -/
theorem add_keeps_nonempty (cs : DomainMembershipTriples Environment) (hc : cs ≠ [])
    (val : Ptr (DomainMembershipTriple Environment)) :
    ∃ c2, DomainMembershipTriples.Add (some cs) val = some c2 ∧ c2 ≠ [] := by
  cases val with
  | none => exact ⟨cs, rfl, hc⟩
  | some t => exact ⟨cs ++ [t], rfl, by simp⟩

/-- Any run of further `Add` calls keeps a non-empty collection non-empty. -/
theorem foldl_add_keeps_nonempty (more : List (Ptr (DomainMembershipTriple Environment)))
    (cs : DomainMembershipTriples Environment) (hc : cs ≠ []) :
    ∃ c2, more.foldl DomainMembershipTriples.Add (some cs) = some c2 ∧ c2 ≠ [] := by
  induction more generalizing cs with
  | nil => exact ⟨cs, rfl, hc⟩
  | cons val rest ih =>
    rcases add_keeps_nonempty cs hc val with ⟨c1, h1, hne⟩
    simp only [List.foldl_cons, h1]
    exact ih c1 hne

/-- C8: for a non-nil collection `cs` and a non-nil triple `t`, `cs.Add(t)`
returns the receiver, now holding the previous sequence followed by `t`: the
length grows by exactly one, every earlier element keeps its position and
value, and the last element is `t`.  Nothing is assumed about `t` not being in
`cs` already: the number of elements equal to `t` grows by one as well. -/
theorem collection_add_appends [DecidableEq Environment]
    (cs : DomainMembershipTriples Environment) (t : DomainMembershipTriple Environment) :
    DomainMembershipTriples.Add (some cs) (some t) = some (cs ++ [t]) ∧
      (cs ++ [t]).length = cs.length + 1 ∧
      (∀ i, i < cs.length → (cs ++ [t])[i]? = cs[i]?) ∧
      (cs ++ [t])[cs.length]? = some t ∧
      (cs ++ [t]).count t = cs.count t + 1 := by
  refine ⟨rfl, by simp, ?_, by simp, by simp⟩
  intro i hi
  exact List.getElem?_append_left hi

/-- C9: for a non-nil triple `t` and an Environment `env`, `t.AddMember(env)`
returns the receiver with `DomainID` unchanged and `Members` equal to the
previous members followed by `env`: the length grows by one, earlier members
keep their position and value, the last member is `env`. -/
theorem triple_addMember_appends (t : DomainMembershipTriple Environment) (env : Environment) :
    DomainMembershipTriple.AddMember (some t) env =
        some ⟨t.DomainID, t.Members ++ [env]⟩ ∧
      (t.Members ++ [env]).length = t.Members.length + 1 ∧
      (∀ i, i < t.Members.length → (t.Members ++ [env])[i]? = t.Members[i]?) ∧
      (t.Members ++ [env])[t.Members.length]? = some env := by
  refine ⟨rfl, by simp, ?_, by simp⟩
  intro i hi
  exact List.getElem?_append_left hi

/-- C10: on a non-nil collection `IsEmpty()` returns whether the length is
zero; it is true for `NewDomainMembershipTriples()`, false after
`cs.Add(t)` with a non-nil `t`, and still false after any further `Add` calls
(with nil or non-nil arguments). -/
theorem collection_isEmpty (cs : DomainMembershipTriples Environment)
    (t : DomainMembershipTriple Environment)
    (more : List (Ptr (DomainMembershipTriple Environment))) :
    DomainMembershipTriples.IsEmpty (some cs) = .ok (decide (cs.length = 0)) ∧
      DomainMembershipTriples.IsEmpty
        (NewDomainMembershipTriples : Ptr (DomainMembershipTriples Environment)) = .ok true ∧
      DomainMembershipTriples.IsEmpty (DomainMembershipTriples.Add (some cs) (some t)) =
        .ok false ∧
      DomainMembershipTriples.IsEmpty
        (more.foldl DomainMembershipTriples.Add
          (DomainMembershipTriples.Add (some cs) (some t))) = .ok false := by
  refine ⟨?_, rfl, ?_, ?_⟩
  · cases cs <;> simp [DomainMembershipTriples.IsEmpty]
  · simp [DomainMembershipTriples.IsEmpty, DomainMembershipTriples.Add]
  · rcases foldl_add_keeps_nonempty more (cs ++ [t]) (by simp) with ⟨c2, h2, hne⟩
    have hadd : DomainMembershipTriples.Add (some cs) (some t) = some (cs ++ [t]) := rfl
    rw [hadd, h2]
    cases c2 with
    | nil => exact absurd rfl hne
    | cons a rest => simp [DomainMembershipTriples.IsEmpty]

end Append

/-! ## Absent receivers and arguments -/

section Absent

variable {Environment : Type} (envValid : Environment → Option GoError)

/-- On a non-nil receiver the triple loop of the collection returns normally. -/
theorem triples_returns (i : Nat) (cs : List (DomainMembershipTriple Environment)) :
    ∃ r, DomainMembershipTriples.Valid.triples envValid i cs = .ok r := by
  induction cs generalizing i with
  | nil => exact ⟨none, rfl⟩
  | cons a rest ih =>
    rcases triple_valid_returns envValid a with ⟨r, hr⟩
    cases r with
    | none =>
      rcases ih (i + 1) with ⟨r2, hr2⟩
      exact ⟨r2, by simp only [DomainMembershipTriples.Valid.triples, hr, hr2]⟩
    | some err =>
      exact ⟨some (.wrapError
        ("domain membership triple at index " ++ fmtInt i ++ ": " ++ err.Error) err),
        by simp only [DomainMembershipTriples.Valid.triples, hr]⟩

/-- C11: `Add` does not fail on absent inputs: on a non-nil collection `cs`,
`cs.Add(nil)` returns the receiver with its contents unchanged; on a nil
receiver `Add(val)` returns the nil receiver for every `val`, nil or not. -/
theorem collection_add_absent (cs : DomainMembershipTriples Environment)
    (val : Ptr (DomainMembershipTriple Environment)) :
    DomainMembershipTriples.Add (some cs) (none : Ptr (DomainMembershipTriple Environment)) =
        some cs ∧
      DomainMembershipTriples.Add (none : Ptr (DomainMembershipTriples Environment)) val =
        none := by
  refine ⟨rfl, ?_⟩
  cases val <;> rfl

/-- C12: `AddMember(env)` on a nil receiver returns the nil receiver, for every
`env`. -/
theorem triple_addMember_nil (env : Environment) :
    DomainMembershipTriple.AddMember (none : Ptr (DomainMembershipTriple Environment)) env =
      none := rfl

/-- C19: on a non-nil receiver `DomainMembershipTriple.Valid`,
`DomainMembershipTriples.Valid` and `DomainMembershipTriples.IsEmpty` return a
result; on a nil receiver each of the three stops at the nil dereference,
whereas `AddMember` and `Add` on a nil receiver return the nil receiver. -/
theorem nil_receiver_asymmetry (t : DomainMembershipTriple Environment)
    (cs : DomainMembershipTriples Environment) (env : Environment)
    (val : Ptr (DomainMembershipTriple Environment)) :
    (∃ r, DomainMembershipTriple.Valid envValid (some t) = .ok r) ∧
      (∃ r, DomainMembershipTriples.Valid envValid (some cs) = .ok r) ∧
      (∃ b, DomainMembershipTriples.IsEmpty (some cs) = .ok b) ∧
      DomainMembershipTriple.Valid envValid (none : Ptr (DomainMembershipTriple Environment)) =
        .error .nilDereference ∧
      DomainMembershipTriples.Valid envValid
        (none : Ptr (DomainMembershipTriples Environment)) = .error .nilDereference ∧
      DomainMembershipTriples.IsEmpty (none : Ptr (DomainMembershipTriples Environment)) =
        .error .nilDereference ∧
      DomainMembershipTriple.AddMember (none : Ptr (DomainMembershipTriple Environment)) env =
        none ∧
      DomainMembershipTriples.Add (none : Ptr (DomainMembershipTriples Environment)) val =
        none := by
  refine ⟨triple_valid_returns envValid t, triples_returns envValid 0 cs, ⟨_, rfl⟩,
    rfl, rfl, rfl, rfl, ?_⟩
  cases val <;> rfl

end Absent

/-! ## Validation leaves the receiver as it was -/

section ReportOnly

variable {Environment : Type} (envValid : Environment → Option GoError)

/-- The triple step hands back its receiver and returns what `Valid` returns. -/
theorem triple_step_eq (o : Ptr (DomainMembershipTriple Environment)) :
    DomainMembershipTriple.Valid.step envValid o =
      (DomainMembershipTriple.Valid envValid o, o) := by
  cases o with
  | none => rfl
  | some t =>
    simp only [DomainMembershipTriple.Valid.step, DomainMembershipTriple.Valid]
    cases envValid t.DomainID with
    | some err => rfl
    | none =>
      by_cases h : t.Members.length = 0
      · simp [h]
      · simp [h]

/-- The collection loop in state-passing form hands back the state it was
given and returns what the loop of `Valid` returns. -/
theorem stepLoop_eq (i : Nat) (rest : List (DomainMembershipTriple Environment))
    (st : DomainMembershipTriples Environment) :
    DomainMembershipTriples.Valid.stepLoop envValid i rest st =
      (DomainMembershipTriples.Valid.triples envValid i rest, st) := by
  induction rest generalizing i with
  | nil => rfl
  | cons a tail ih =>
    simp only [DomainMembershipTriples.Valid.stepLoop, DomainMembershipTriples.Valid.triples,
      triple_step_eq]
    cases DomainMembershipTriple.Valid envValid (some a) with
    | error p => rfl
    | ok r =>
      cases r with
      | none => exact ih (i + 1)
      | some err => rfl

/-- The collection step hands back its receiver and returns what `Valid`
returns. -/
theorem collection_step_eq (o : Ptr (DomainMembershipTriples Environment)) :
    DomainMembershipTriples.Valid.step envValid o =
      (DomainMembershipTriples.Valid envValid o, o) := by
  cases o with
  | none => rfl
  | some cs =>
    simp only [DomainMembershipTriples.Valid.step, DomainMembershipTriples.Valid, stepLoop_eq]

/-- C16: validation is report-only.  For every triple receiver `o` and every
collection receiver `oc`, the call `Valid()` leaves the receiver (DomainID,
Members, the elements of the collection) exactly as it was, whatever the
result, returns the result of `Valid`, and a second call on what the first
left returns the same result. -/
theorem validation_report_only (o : Ptr (DomainMembershipTriple Environment))
    (oc : Ptr (DomainMembershipTriples Environment)) :
    (DomainMembershipTriple.Valid.step envValid o).2 = o ∧
      (DomainMembershipTriple.Valid.step envValid o).1 =
        DomainMembershipTriple.Valid envValid o ∧
      (DomainMembershipTriple.Valid.step envValid
          (DomainMembershipTriple.Valid.step envValid o).2).1 =
        (DomainMembershipTriple.Valid.step envValid o).1 ∧
      (DomainMembershipTriples.Valid.step envValid oc).2 = oc ∧
      (DomainMembershipTriples.Valid.step envValid oc).1 =
        DomainMembershipTriples.Valid envValid oc ∧
      (DomainMembershipTriples.Valid.step envValid
          (DomainMembershipTriples.Valid.step envValid oc).2).1 =
        (DomainMembershipTriples.Valid.step envValid oc).1 := by
  simp only [triple_step_eq, collection_step_eq, and_self]

end ReportOnly

/-! ## Appending and validation -/

section AppendValid

variable {Environment : Type} (envValid : Environment → Option GoError)

/-- The member loop over a sequence with one more member at its end: an error
found in the old members stands; otherwise the new member is checked, at the
index following the old ones. -/
theorem members_append_one (i : Nat) (ms : List Environment) (env : Environment) :
    DomainMembershipTriple.Valid.members envValid i (ms ++ [env]) =
      match DomainMembershipTriple.Valid.members envValid i ms with
      | some e => some e
      | none => DomainMembershipTriple.Valid.members envValid (i + ms.length) [env] := by
  induction ms generalizing i with
  | nil => simp [DomainMembershipTriple.Valid.members]
  | cons a rest ih =>
    rw [List.cons_append]
    cases ha : envValid a with
    | some err => simp only [DomainMembershipTriple.Valid.members, ha]
    | none =>
      have h1 : ∀ l, DomainMembershipTriple.Valid.members envValid i (a :: l) =
          DomainMembershipTriple.Valid.members envValid (i + 1) l := by
        intro l
        simp only [DomainMembershipTriple.Valid.members, ha]
      have hi : i + 1 + rest.length = i + (rest.length + 1) := by omega
      rw [h1, h1, ih (i + 1), List.length_cons, hi]

/-- The triple loop over a collection with one more triple at its end: a
result other than success on the old triples stands; otherwise the new triple
is checked, at the index following the old ones. -/
theorem triples_append_one (i : Nat) (cs : List (DomainMembershipTriple Environment))
    (t : DomainMembershipTriple Environment) :
    DomainMembershipTriples.Valid.triples envValid i (cs ++ [t]) =
      match DomainMembershipTriples.Valid.triples envValid i cs with
      | .ok none => DomainMembershipTriples.Valid.triples envValid (i + cs.length) [t]
      | r => r := by
  induction cs generalizing i with
  | nil => simp [DomainMembershipTriples.Valid.triples]
  | cons a rest ih =>
    rw [List.cons_append]
    rcases triple_valid_returns envValid a with ⟨r, hr⟩
    cases r with
    | some err => simp only [DomainMembershipTriples.Valid.triples, hr]
    | none =>
      have h1 : ∀ l, DomainMembershipTriples.Valid.triples envValid i (a :: l) =
          DomainMembershipTriples.Valid.triples envValid (i + 1) l := by
        intro l
        simp only [DomainMembershipTriples.Valid.triples, hr]
      have hi : i + 1 + rest.length = i + (rest.length + 1) := by omega
      rw [h1, h1, ih (i + 1), List.length_cons, hi]

/-- The triple loop on a single triple at index `i`. -/
theorem triples_single (i : Nat) (t : DomainMembershipTriple Environment) :
    DomainMembershipTriples.Valid.triples envValid i [t] =
      match DomainMembershipTriple.Valid envValid (some t) with
      | .error p => .error p
      | .ok (some err) =>
        .ok (some (.wrapError
          ("domain membership triple at index " ++ fmtInt i ++ ": " ++ err.Error) err))
      | .ok none => .ok none := by
  rcases triple_valid_returns envValid t with ⟨r, hr⟩
  cases r <;> simp [DomainMembershipTriples.Valid.triples, hr]

/-- C17: for a non-nil collection `cs` and a non-nil triple `t`: (1) if
`cs.Valid()` fails with `err`, `cs.Add(t).Valid()` fails with the same `err`;
(2) if `cs.Valid()` succeeds and `t.Valid()` fails with `err`,
`cs.Add(t).Valid()` fails with "domain membership triple at index len(cs): "
followed by the message of `err`, wrapping `err`, `len(cs)` being the length
before the `Add`; (3) `cs.Add(t).Valid()` succeeds if and only if both
`cs.Valid()` and `t.Valid()` succeed. -/
theorem collection_add_valid (cs : DomainMembershipTriples Environment)
    (t : DomainMembershipTriple Environment) :
    (∀ err, DomainMembershipTriples.Valid envValid (some cs) = .ok (some err) →
        DomainMembershipTriples.Valid envValid
          (DomainMembershipTriples.Add (some cs) (some t)) = .ok (some err)) ∧
      (∀ err, DomainMembershipTriples.Valid envValid (some cs) = .ok none →
        DomainMembershipTriple.Valid envValid (some t) = .ok (some err) →
        DomainMembershipTriples.Valid envValid
          (DomainMembershipTriples.Add (some cs) (some t)) =
            .ok (some (.wrapError
              ("domain membership triple at index " ++ fmtInt cs.length ++ ": " ++ err.Error)
              err))) ∧
      (DomainMembershipTriples.Valid envValid
          (DomainMembershipTriples.Add (some cs) (some t)) = .ok none ↔
        DomainMembershipTriples.Valid envValid (some cs) = .ok none ∧
          DomainMembershipTriple.Valid envValid (some t) = .ok none) := by
  have hadd : DomainMembershipTriples.Valid envValid
      (DomainMembershipTriples.Add (some cs) (some t)) =
      match DomainMembershipTriples.Valid.triples envValid 0 cs with
      | .ok none => DomainMembershipTriples.Valid.triples envValid (0 + cs.length) [t]
      | r => r := triples_append_one envValid 0 cs t
  have hcs : DomainMembershipTriples.Valid envValid (some cs) =
      DomainMembershipTriples.Valid.triples envValid 0 cs := rfl
  rw [hadd, hcs, Nat.zero_add, triples_single]
  rcases triples_returns envValid 0 cs with ⟨r, hr⟩
  rcases triple_valid_returns envValid t with ⟨rt, hrt⟩
  rw [hr, hrt]
  cases r with
  | some e =>
    refine ⟨?_, ?_, ?_⟩
    · intro err h
      exact h
    · intro err h
      cases h
    · simp
  | none =>
    refine ⟨?_, ?_, ?_⟩
    · intro err h
      cases h
    · intro err _ h
      cases h
      rfl
    · cases rt <;> simp

/-- When `Valid` fails on a triple whose domain is invalid or which has at
least one member, one more member does not change the result. -/
theorem addMember_keeps_error (t : DomainMembershipTriple Environment) (env : Environment)
    (e : GoError) (hv : DomainMembershipTriple.Valid envValid (some t) = .ok (some e))
    (hcase : envValid t.DomainID ≠ none ∨ t.Members ≠ []) :
    DomainMembershipTriple.Valid envValid (DomainMembershipTriple.AddMember (some t) env) =
      .ok (some e) := by
  rcases t with ⟨d, ms⟩
  cases hd : envValid d with
  | some err =>
    simp only [DomainMembershipTriple.Valid, hd] at hv
    simp only [DomainMembershipTriple.AddMember, DomainMembershipTriple.Valid, hd]
    exact hv
  | none =>
    have hne : ms ≠ [] := by
      rcases hcase with h | h
      · exact absurd hd h
      · exact h
    rw [triple_valid_of_domain_ok envValid d ms hd hne] at hv
    have hm : DomainMembershipTriple.Valid.members envValid 0 ms = some e := by
      injection hv
    show DomainMembershipTriple.Valid envValid (some ⟨d, ms ++ [env]⟩) = _
    rw [triple_valid_of_domain_ok envValid d (ms ++ [env]) hd (by simp),
      members_append_one, hm]

/-- C18: for a non-nil triple `t` and an Environment `env`: (1) if `t.Valid()`
succeeds and `env` is valid, `t.AddMember(env).Valid()` succeeds; (2) if `t`
has a valid domain and no members and `env` is valid, `t.AddMember(env).Valid()`
succeeds; (3) if `t.Valid()` succeeds and `env` fails with `err`,
`t.AddMember(env).Valid()` fails reporting the index `len(t.Members)` of before
the append, wrapping `err`; (4) if the domain of `t` is invalid, or the domain
is valid and the lowest invalid member of `t` is at index `k`, then
`t.AddMember(env).Valid()` returns the same domain error, respectively the
same member-at-index-`k` error, as `t.Valid()`, for every `env`. -/
theorem triple_addMember_valid (t : DomainMembershipTriple Environment) (env : Environment) :
    (DomainMembershipTriple.Valid envValid (some t) = .ok none → envValid env = none →
        DomainMembershipTriple.Valid envValid (DomainMembershipTriple.AddMember (some t) env) =
          .ok none) ∧
      (envValid t.DomainID = none → t.Members = [] → envValid env = none →
        DomainMembershipTriple.Valid envValid (DomainMembershipTriple.AddMember (some t) env) =
          .ok none) ∧
      (∀ err, DomainMembershipTriple.Valid envValid (some t) = .ok none →
        envValid env = some err →
        DomainMembershipTriple.Valid envValid (DomainMembershipTriple.AddMember (some t) env) =
          .ok (some (.wrapError
            ("members validation failed: member at index " ++ fmtInt t.Members.length ++ ": " ++
              err.Error) err))) ∧
      (∀ err, envValid t.DomainID = some err →
        DomainMembershipTriple.Valid envValid (some t) =
            .ok (some (.wrapError ("domain-id validation failed: " ++ err.Error) err)) ∧
          DomainMembershipTriple.Valid envValid
              (DomainMembershipTriple.AddMember (some t) env) =
            DomainMembershipTriple.Valid envValid (some t)) ∧
      (∀ k e err, envValid t.DomainID = none → t.Members[k]? = some e →
        envValid e = some err →
        (∀ j, j < k → ∀ x, t.Members[j]? = some x → envValid x = none) →
        DomainMembershipTriple.Valid envValid (some t) =
            .ok (some (.wrapError
              ("members validation failed: member at index " ++ fmtInt k ++ ": " ++ err.Error)
              err)) ∧
          DomainMembershipTriple.Valid envValid
              (DomainMembershipTriple.AddMember (some t) env) =
            DomainMembershipTriple.Valid envValid (some t)) := by
  rcases t with ⟨d, ms⟩
  have hadd : DomainMembershipTriple.AddMember (some (⟨d, ms⟩ : DomainMembershipTriple Environment))
      env = some ⟨d, ms ++ [env]⟩ := rfl
  have hok : ∀ r, DomainMembershipTriple.Valid envValid (some ⟨d, ms⟩) = .ok none →
      envValid env = r →
      DomainMembershipTriple.Valid envValid (some ⟨d, ms ++ [env]⟩) =
        .ok (DomainMembershipTriple.Valid.members envValid ms.length [env]) := by
    intro r hv _
    rcases triple_valid_nil_parts envValid d ms hv with ⟨hd, _, hall⟩
    rw [triple_valid_of_domain_ok envValid d (ms ++ [env]) hd (by simp), members_append_one,
      hall, Nat.zero_add]
  refine ⟨?_, ?_, ?_, ?_, ?_⟩
  · intro hv henv
    rw [hadd, hok none hv henv]
    simp [DomainMembershipTriple.Valid.members, henv]
  · intro hd hms henv
    simp only at hd hms
    subst hms
    rw [hadd, triple_valid_of_domain_ok envValid d ([] ++ [env]) hd (by simp)]
    simp [DomainMembershipTriple.Valid.members, henv]
  · intro err hv henv
    rw [hadd, hok (some err) hv henv]
    simp [DomainMembershipTriple.Valid.members, henv]
  · intro err hd
    simp only at hd
    have hv : DomainMembershipTriple.Valid envValid (some ⟨d, ms⟩) =
        .ok (some (.wrapError ("domain-id validation failed: " ++ err.Error) err)) := by
      simp [DomainMembershipTriple.Valid, hd]
    refine ⟨hv, ?_⟩
    rw [hv]
    exact addMember_keeps_error envValid ⟨d, ms⟩ env _ hv (Or.inl (by simp [hd]))
  · intro k e err hd hk he hlt
    simp only at hd hk hlt
    have hne : ms ≠ [] := by
      intro h
      subst h
      simp at hk
    have hv : DomainMembershipTriple.Valid envValid (some ⟨d, ms⟩) =
        .ok (some (.wrapError
          ("members validation failed: member at index " ++ fmtInt k ++ ": " ++ err.Error)
          err)) := by
      rw [triple_valid_of_domain_ok envValid d ms hd hne,
        members_at envValid 0 k ms e err hk he hlt, Nat.zero_add]
    refine ⟨hv, ?_⟩
    rw [hv]
    exact addMember_keeps_error envValid ⟨d, ms⟩ env _ hv (Or.inr hne)

end AppendValid

/-! ## The document aggregate: attaching a triple -/

section AggregateAttach

variable {Environment Siblings Metadata : Type}

/-- C15: the attach operation of the aggregate.  On a non-nil `Triples` whose
collection is absent, attaching the triple `t` creates the collection and
leaves it present holding `t` alone, hence non-empty; a collection already
present gains `t` at its end; the rest of the aggregate is returned as it was;
on a nil aggregate the operation returns nil.  The same holds of the attach
operation of the document `Comid`. -/
theorem aggregate_attach (sib : Siblings) (md : Metadata)
    (cs : DomainMembershipTriples Environment) (t : DomainMembershipTriple Environment)
    (val : Ptr (DomainMembershipTriple Environment)) :
    Triples.AddDomainMembershipTriple (some (⟨sib, none⟩ : Triples Environment Siblings))
        (some t) = some ⟨sib, some [t]⟩ ∧
      DomainMembershipTriples.IsEmpty (some [t]) = .ok false ∧
      Triples.AddDomainMembershipTriple (some (⟨sib, some cs⟩ : Triples Environment Siblings))
        (some t) = some ⟨sib, some (cs ++ [t])⟩ ∧
      Triples.AddDomainMembershipTriple (none : Ptr (Triples Environment Siblings)) val =
        none ∧
      Comid.AddDomainMembershipTriple
        (some (⟨md, ⟨sib, none⟩⟩ : Comid Environment Siblings Metadata)) (some t) =
          some ⟨md, ⟨sib, some [t]⟩⟩ ∧
      Comid.AddDomainMembershipTriple
        (some (⟨md, ⟨sib, some cs⟩⟩ : Comid Environment Siblings Metadata)) (some t) =
          some ⟨md, ⟨sib, some (cs ++ [t])⟩⟩ ∧
      Comid.AddDomainMembershipTriple (none : Ptr (Comid Environment Siblings Metadata)) val =
        none :=
  ⟨rfl, rfl, rfl, rfl, rfl, rfl, rfl⟩

end AggregateAttach

/-! ## Wire format -/

section WireFormat

variable {Environment : Type} (encodeEnv : Environment → DataItem)

/-- C14: the wire format of one triple.  The binary form is an array of
exactly two elements in the fixed order domain, members, without keys; the
textual form is an object whose keys are exactly "domain-id" and "members",
the members standing in sequence order in both. -/
theorem triple_wire_format (t : DomainMembershipTriple Environment) :
    DomainMembershipTriple.encodeCBOR encodeEnv t =
        .array [encodeEnv t.DomainID, .array (t.Members.map encodeEnv)] ∧
      DomainMembershipTriple.encodeJSON encodeEnv t =
        .object [("domain-id", encodeEnv t.DomainID),
          ("members", .array (t.Members.map encodeEnv))] ∧
      (DomainMembershipTriple.encodeJSON encodeEnv t).keys = ["domain-id", "members"] :=
  ⟨rfl, rfl, rfl⟩

end WireFormat

/-! ## Worked instances -/

section Instances

/-- Instance of C2: the empty domain with one valid member (the input of
`TestDomainMembershipTriple_Valid_EmptyDomainID`). -/
theorem triple_valid_domain_error_witness :
    ClassInstanceEnvironment.Valid emptyEnvironment =
        some (.errorString "environment must not be empty") ∧
      DomainMembershipTriple.Valid ClassInstanceEnvironment.Valid
          (some ⟨emptyEnvironment, [classEnvironment]⟩) =
        .ok (some (.wrapError "domain-id validation failed: environment must not be empty"
          (.errorString "environment must not be empty"))) :=
  ⟨by decide,
    triple_valid_domain_error ClassInstanceEnvironment.Valid emptyEnvironment
      [classEnvironment] (.errorString "environment must not be empty") (by decide)⟩

/-- Instance of C3: a valid domain with no members (the input of
`TestDomainMembershipTriple_Valid_EmptyMembers`). -/
theorem triple_valid_no_members_witness :
    ClassInstanceEnvironment.Valid classEnvironment = none ∧
      DomainMembershipTriple.Valid ClassInstanceEnvironment.Valid
          (some ⟨classEnvironment, []⟩) =
        .ok (some (.errorString "members validation failed: no member environments")) :=
  ⟨by decide,
    (triple_valid_no_members ClassInstanceEnvironment.Valid classEnvironment (by decide)).1⟩

/-- Instance of C4: members valid, empty, empty; the first empty one, at index
1, is the one reported, also when what follows it is replaced. -/
theorem triple_valid_first_invalid_member_witness :
    ClassInstanceEnvironment.Valid classEnvironment = none ∧
      ClassInstanceEnvironment.Valid emptyEnvironment =
        some (.errorString "environment must not be empty") ∧
      DomainMembershipTriple.Valid ClassInstanceEnvironment.Valid
          (some ⟨classEnvironment, [instanceEnvironment, emptyEnvironment, emptyEnvironment]⟩) =
        .ok (some (.wrapError
          "members validation failed: member at index 1: environment must not be empty"
          (.errorString "environment must not be empty"))) ∧
      DomainMembershipTriple.Valid ClassInstanceEnvironment.Valid
          (some ⟨classEnvironment,
            [instanceEnvironment, emptyEnvironment, emptyEnvironment].take (1 + 1) ++
              [classEnvironment]⟩) =
        DomainMembershipTriple.Valid ClassInstanceEnvironment.Valid
          (some ⟨classEnvironment, [instanceEnvironment, emptyEnvironment, emptyEnvironment]⟩) :=
  have h := triple_valid_first_invalid_member ClassInstanceEnvironment.Valid classEnvironment
    [instanceEnvironment, emptyEnvironment, emptyEnvironment] 1 emptyEnvironment
    (.errorString "environment must not be empty") (by decide) (by decide) (by decide)
    (by
      intro j hj x hx
      have hj0 : j = 0 := by omega
      subst hj0
      simp at hx
      subst hx
      decide)
  ⟨by decide, by decide, h.1, h.2 [classEnvironment]⟩

/-- Counterexample to C5 as stated: with the empty (invalid) domain and no
members, `Valid()` returns the domain error, which is not the empty-membership
error and whose message does not contain "no member environments". -/
theorem triple_valid_empty_members_invalid_domain :
    DomainMembershipTriple.Valid ClassInstanceEnvironment.Valid
          (some ⟨emptyEnvironment, []⟩) =
        .ok (some (.wrapError "domain-id validation failed: environment must not be empty"
          (.errorString "environment must not be empty"))) ∧
      DomainMembershipTriple.Valid ClassInstanceEnvironment.Valid
          (some ⟨emptyEnvironment, []⟩) ≠
        .ok (some (.errorString "members validation failed: no member environments")) ∧
      ¬ strContains
        (GoError.Error (.wrapError "domain-id validation failed: environment must not be empty"
          (.errorString "environment must not be empty")))
        "no member environments" := by
  refine ⟨rfl, ?_, by decide⟩
  intro h
  have h2 : DomainMembershipTriple.Valid ClassInstanceEnvironment.Valid
      (some ⟨emptyEnvironment, []⟩) =
      .ok (some (.wrapError "domain-id validation failed: environment must not be empty"
        (.errorString "environment must not be empty"))) := rfl
  rw [h2] at h
  injection h with h
  injection h with h
  cases h

/-- Instance of C7: a valid triple followed by one with the empty domain (the
shape of `TestDomainMembershipTriples_Valid_InvalidTriple`, one place later)
and by one with no members; index 1 is reported, also when what follows it is
replaced. -/
theorem collection_valid_first_invalid_triple_witness :
    DomainMembershipTriple.Valid ClassInstanceEnvironment.Valid
          (some ⟨emptyEnvironment, [instanceEnvironment]⟩) =
        .ok (some (.wrapError "domain-id validation failed: environment must not be empty"
          (.errorString "environment must not be empty"))) ∧
      DomainMembershipTriples.Valid ClassInstanceEnvironment.Valid
          (some [⟨classEnvironment, [instanceEnvironment]⟩,
            ⟨emptyEnvironment, [instanceEnvironment]⟩, ⟨classEnvironment, []⟩]) =
        .ok (some (.wrapError
          "domain membership triple at index 1: domain-id validation failed: environment must not be empty"
          (.wrapError "domain-id validation failed: environment must not be empty"
            (.errorString "environment must not be empty")))) ∧
      DomainMembershipTriples.Valid ClassInstanceEnvironment.Valid
          (some ([⟨classEnvironment, [instanceEnvironment]⟩,
            ⟨emptyEnvironment, [instanceEnvironment]⟩, ⟨classEnvironment, []⟩].take (1 + 1) ++
              [])) =
        DomainMembershipTriples.Valid ClassInstanceEnvironment.Valid
          (some [⟨classEnvironment, [instanceEnvironment]⟩,
            ⟨emptyEnvironment, [instanceEnvironment]⟩, ⟨classEnvironment, []⟩]) :=
  have h := collection_valid_first_invalid_triple ClassInstanceEnvironment.Valid
    [⟨classEnvironment, [instanceEnvironment]⟩,
      ⟨emptyEnvironment, [instanceEnvironment]⟩, ⟨classEnvironment, []⟩]
    1 ⟨emptyEnvironment, [instanceEnvironment]⟩
    (.wrapError "domain-id validation failed: environment must not be empty"
      (.errorString "environment must not be empty"))
    (by decide) rfl
    (by
      intro j hj x hx
      have hj0 : j = 0 := by omega
      subst hj0
      simp at hx
      subst hx
      rfl)
  ⟨rfl, h.1, h.2 []⟩

/-- Instance of C17: (1) an invalid collection stays invalid with the same
error after a valid triple is added; (2) a valid collection of one triple
followed by a triple with the empty domain reports index 1; (3) a valid
collection followed by a valid triple is valid. -/
theorem collection_add_valid_witness :
    DomainMembershipTriples.Valid ClassInstanceEnvironment.Valid
        (DomainMembershipTriples.Add (some [⟨classEnvironment, []⟩])
          (some ⟨classEnvironment, [instanceEnvironment]⟩)) =
        .ok (some (.wrapError
          "domain membership triple at index 0: members validation failed: no member environments"
          (.errorString "members validation failed: no member environments"))) ∧
      DomainMembershipTriples.Valid ClassInstanceEnvironment.Valid
        (DomainMembershipTriples.Add (some [⟨classEnvironment, [instanceEnvironment]⟩])
          (some ⟨emptyEnvironment, [instanceEnvironment]⟩)) =
        .ok (some (.wrapError
          "domain membership triple at index 1: domain-id validation failed: environment must not be empty"
          (.wrapError "domain-id validation failed: environment must not be empty"
            (.errorString "environment must not be empty")))) ∧
      DomainMembershipTriples.Valid ClassInstanceEnvironment.Valid
        (DomainMembershipTriples.Add (some [⟨classEnvironment, [instanceEnvironment]⟩])
          (some ⟨instanceEnvironment, [classEnvironment]⟩)) = .ok none :=
  ⟨(collection_add_valid ClassInstanceEnvironment.Valid [⟨classEnvironment, []⟩]
      ⟨classEnvironment, [instanceEnvironment]⟩).1 _ rfl,
    (collection_add_valid ClassInstanceEnvironment.Valid
      [⟨classEnvironment, [instanceEnvironment]⟩]
      ⟨emptyEnvironment, [instanceEnvironment]⟩).2.1 _ rfl rfl,
    (collection_add_valid ClassInstanceEnvironment.Valid
      [⟨classEnvironment, [instanceEnvironment]⟩]
      ⟨instanceEnvironment, [classEnvironment]⟩).2.2.2 ⟨rfl, rfl⟩⟩

/-- Instance of C18: (1) a valid triple stays valid with one more valid
member; (2) a triple with a valid domain and no members becomes valid with
one valid member; (3) a valid triple of one member followed by the empty
Environment reports index 1; (4) with the empty domain, and with the empty
Environment as first member, the result is the same before and after one more
member. -/
theorem triple_addMember_valid_witness :
    DomainMembershipTriple.Valid ClassInstanceEnvironment.Valid
        (DomainMembershipTriple.AddMember (some ⟨classEnvironment, [instanceEnvironment]⟩)
          classEnvironment) = .ok none ∧
      DomainMembershipTriple.Valid ClassInstanceEnvironment.Valid
        (DomainMembershipTriple.AddMember (some ⟨classEnvironment, []⟩)
          instanceEnvironment) = .ok none ∧
      DomainMembershipTriple.Valid ClassInstanceEnvironment.Valid
        (DomainMembershipTriple.AddMember (some ⟨classEnvironment, [instanceEnvironment]⟩)
          emptyEnvironment) =
        .ok (some (.wrapError
          "members validation failed: member at index 1: environment must not be empty"
          (.errorString "environment must not be empty"))) ∧
      DomainMembershipTriple.Valid ClassInstanceEnvironment.Valid
        (DomainMembershipTriple.AddMember (some ⟨emptyEnvironment, []⟩) classEnvironment) =
        DomainMembershipTriple.Valid ClassInstanceEnvironment.Valid
          (some ⟨emptyEnvironment, []⟩) ∧
      DomainMembershipTriple.Valid ClassInstanceEnvironment.Valid
        (DomainMembershipTriple.AddMember (some ⟨classEnvironment, [emptyEnvironment]⟩)
          classEnvironment) =
        DomainMembershipTriple.Valid ClassInstanceEnvironment.Valid
          (some ⟨classEnvironment, [emptyEnvironment]⟩) :=
  ⟨(triple_addMember_valid ClassInstanceEnvironment.Valid
      ⟨classEnvironment, [instanceEnvironment]⟩ classEnvironment).1 rfl rfl,
    (triple_addMember_valid ClassInstanceEnvironment.Valid
      ⟨classEnvironment, []⟩ instanceEnvironment).2.1 rfl rfl rfl,
    (triple_addMember_valid ClassInstanceEnvironment.Valid
      ⟨classEnvironment, [instanceEnvironment]⟩ emptyEnvironment).2.2.1 _ rfl rfl,
    ((triple_addMember_valid ClassInstanceEnvironment.Valid
      ⟨emptyEnvironment, []⟩ classEnvironment).2.2.2.1
        (.errorString "environment must not be empty") rfl).2,
    ((triple_addMember_valid ClassInstanceEnvironment.Valid
      ⟨classEnvironment, [emptyEnvironment]⟩ classEnvironment).2.2.2.2 0 emptyEnvironment
        (.errorString "environment must not be empty") rfl rfl rfl
        (fun j hj => absurd hj (Nat.not_lt_zero j))).2⟩

end Instances

end comid
